import Mathlib

/-!
Verification of the qt2tex document model (latex.h, canonical revision).

The development embeds the LaTeX document model of the repository:
the `ITeXElement` line-producer protocol with its two variants
(`LaTeXParagraph`, `LaTeXLongTable`), the `BaseDocument` streaming
render, the `LuaDocument` configurable preamble, and the
`PdfFileRenderer` compile pipeline.

Modelling conventions:
- `QString` is `String`; `QVector`/`QList`/`QStringList` are `List`;
  `QStringList::join(sep)` is `joinSep sep`.
- A reader (the stateful `IReader` cursor) is its `_position` counter
  (`Nat`; the C++ `int` starts at 0 and is only ever incremented), and
  the methods become functions from the element and the position.
- The `throw std::exception()` in `LaTeXLongTable::Reader::getRow`
  becomes an `Except Unit` error value that the callers propagate.
- A `QTextStream` output channel is the `String` of the text written to
  it so far; writing appends.  A function that writes to the stream and
  may throw returns `Except String String`: `.ok s` is normal
  completion with channel content `s`, `.error s` is the escaping
  exception, with `s` the content already on the channel at the throw.
- Braces in LaTeX string literals are written with the escapes
  `\x7b` / `\x7d` for `{` / `}`.
-/

/-- `s ++ "" = s` for strings. -/
theorem string_append_empty (s : String) : s ++ "" = s := by
  apply String.ext
  simp [String.data_append]

/-- `"" ++ s = s` for strings. -/
theorem string_empty_append (s : String) : "" ++ s = s := by
  apply String.ext
  simp [String.data_append]

/-- String concatenation is associative. -/
theorem string_append_assoc (a b c : String) : a ++ b ++ c = a ++ (b ++ c) := by
  apply String.ext
  simp [String.data_append]

/-- Model of `QStringList::join(sep)`: the elements separated by `sep`
(empty for the empty list). -/
def joinSep (sep : String) : List String → String
  | [] => ""
  | [s] => s
  | s :: s2 :: rest => s ++ sep ++ joinSep sep (s2 :: rest)

/-- Concatenation of a list of strings (no separator). -/
def concatList : List String → String
  | [] => ""
  | s :: rest => s ++ concatList rest

theorem concatList_append (a b : List String) :
    concatList (a ++ b) = concatList a ++ concatList b := by
  induction a with
  | nil => simp [concatList, string_empty_append]
  | cons s rest ih => simp [concatList, ih, string_append_assoc]

/-- One column of a `LaTeXLongTable`: a name and a one-character type
tag (`LaTeXLongTable::Column`). -/
structure Column where
  name : String
  type : Char
deriving DecidableEq

/-- One data row of a `LaTeXLongTable` (`LaTeXLongTable::Row`): the
ordered cell values. -/
structure Row where
  values : List String
deriving DecidableEq

/-- `LaTeXLongTable`: a label, the columns fixed at construction, and
the appendable data rows. -/
structure LaTeXLongTable where
  label : String
  columns : List Column
  rows : List Row
deriving DecidableEq

namespace LaTeXLongTable

/-- `Reader::getCols`: starts from `"|"` and appends each column's type
character followed by `'|'`. -/
def getCols (t : LaTeXLongTable) : String :=
  t.columns.foldl (fun cols c => cols ++ String.singleton c.type ++ "|") "|"

/-- `Reader::getTableBegin`: the literal
`"\begin{xltabular}[l]{\textwidth}{%1}"` with `%1` replaced by
`getCols()`. -/
def getTableBegin (t : LaTeXLongTable) : String :=
  "\\begin\x7bxltabular\x7d[l]\x7b\\textwidth\x7d\x7b" ++ t.getCols ++ "\x7d"

/-- `Reader::getTableLabel`: the literal
`"\multicolumn{%1}{l}{\hspace{-\tabcolsep}%2} \\ \hline"` with `%1` the
column count and `%2` the label, prepended with `RowStart`. -/
def getTableLabel (t : LaTeXLongTable) : String :=
  "    " ++ "\\multicolumn\x7b" ++ toString t.columns.length ++
    "\x7d\x7bl\x7d\x7b\\hspace\x7b-\\tabcolsep\x7d" ++ t.label ++ "\x7d \\\\ \\hline"

/-- `Reader::getTableHeader`: the column names joined by `" & "`, with
`RowStart` prepended and `RowEnd` appended. -/
def getTableHeader (t : LaTeXLongTable) : String :=
  "    " ++ joinSep " & " (t.columns.map fun c => c.name) ++ " \\\\ \\hline"

/-- The `Reader::TableEnd` literal. -/
def TableEnd : String := "\\end\x7bxltabular\x7d"

/-- `Reader::getRow`: returns an empty string when the index fails the
bounds guard (`rows.count() < rowIndex || rowIndex < 0`), throws when
the row's cell count differs from the column count, and otherwise
returns the cells joined by `" & "` with `RowStart` / `RowEnd` around
them.  `rows.at(rowIndex)` is modelled with a default empty row; the
default is only reachable at `rowIndex = rows.count()`, a call that
never happens from `readLine` (see `rowAccessIndex_in_range`). -/
def getRow (t : LaTeXLongTable) (rowIndex : Int) : Except Unit String :=
  if (t.rows.length : Int) < rowIndex ∨ rowIndex < 0 then
    .ok ""
  else
    let row := t.rows.getD rowIndex.toNat ⟨[]⟩
    if row.values.length ≠ t.columns.length then
      .error ()
    else
      .ok ("    " ++ joinSep " & " row.values ++ " \\\\ \\hline")

/-- `Reader::getCurrentRowIndex`: `_position - 3` (C++ `int`
subtraction). -/
def getCurrentRowIndex (pos : Nat) : Int :=
  (pos : Int) - 3

/-- `Reader::allRowsReady`: `_position == rows.count() + 3`. -/
def allRowsReady (t : LaTeXLongTable) (pos : Nat) : Bool :=
  pos == t.rows.length + 3

/-- `Reader::atEnd`: `_position == rows.count() + 4`. -/
def atEnd (t : LaTeXLongTable) (pos : Nat) : Bool :=
  pos == t.rows.length + 4

/-- `LaTeXLongTable::Reader::readLine`: returns the produced line and
the next `_position`; at end it returns the empty string without
advancing; the `getRow` exception propagates. -/
def readLine (t : LaTeXLongTable) (pos : Nat) : Except Unit (String × Nat) :=
  if t.atEnd pos then
    .ok ("", pos)
  else if pos == 0 then
    .ok (t.getTableBegin, pos + 1)
  else if pos == 1 then
    .ok (t.getTableLabel, pos + 1)
  else if pos == 2 then
    .ok (t.getTableHeader, pos + 1)
  else if t.allRowsReady pos then
    .ok (TableEnd, pos + 1)
  else
    match t.getRow (getCurrentRowIndex pos) with
    | .error e => .error e
    | .ok s => .ok (s, pos + 1)

/-- Instrumentation of the single `rows.at(rowIndex)` call site in
`getRow`: the row index that a `readLine` at position `pos` actually
looks up in `rows`, or `none` when no lookup happens (directive
positions, the end position, or an index rejected by the bounds guard
in `getRow`). -/
def rowAccessIndex (t : LaTeXLongTable) (pos : Nat) : Option Int :=
  if t.atEnd pos then none
  else if pos == 0 then none
  else if pos == 1 then none
  else if pos == 2 then none
  else if t.allRowsReady pos then none
  else
    let rowIndex := getCurrentRowIndex pos
    if (t.rows.length : Int) < rowIndex ∨ rowIndex < 0 then none
    else some rowIndex

end LaTeXLongTable

/-- `LaTeXParagraph`: the ordered sentence strings. -/
structure LaTeXParagraph where
  sentences : List String
deriving DecidableEq

namespace LaTeXParagraph

/-- `Reader::atEnd`: `_position == sentences.count()`. -/
def atEnd (p : LaTeXParagraph) (pos : Nat) : Bool :=
  pos == p.sentences.length

/-- `LaTeXParagraph::Reader::readLine`: at end the result is the empty
string, otherwise `sentences[_position]`; `_position` is incremented
unconditionally.  Out-of-range `QVector` indexing (reachable only by
calling `readLine` two or more times past exhaustion) is undefined
behaviour in the source and is modelled by the `""` default. -/
def readLine (p : LaTeXParagraph) (pos : Nat) : String × Nat :=
  (if p.atEnd pos then "" else p.sentences.getD pos "", pos + 1)

end LaTeXParagraph

/-- The `ITeXElement` interface: the two renderable variants. -/
inductive ITeXElement where
  | paragraph (p : LaTeXParagraph)
  | longTable (t : LaTeXLongTable)
deriving DecidableEq

namespace ITeXElement

/-- Virtual dispatch of `IReader::atEnd`. -/
def atEnd : ITeXElement → Nat → Bool
  | .paragraph p, pos => p.atEnd pos
  | .longTable t, pos => t.atEnd pos

/-- Virtual dispatch of `IReader::readLine` (a paragraph's `readLine`
never throws). -/
def readLine : ITeXElement → Nat → Except Unit (String × Nat)
  | .paragraph p, pos => .ok (p.readLine pos)
  | .longTable t, pos => t.readLine pos

/-- The number of iterations the render's `while (!atEnd())` loop
performs on a fresh reader of this element: a fresh reader starts at
position 0, every non-final `readLine` advances the position by one,
and `atEnd` first holds at this position. -/
def lineBound : ITeXElement → Nat
  | .paragraph p => p.sentences.length
  | .longTable t => t.rows.length + 4

end ITeXElement

/-- Result of draining a reader: the lines it yielded, the final
`_position`, and whether it completed without the fatal exception. -/
structure RunResult where
  lines : List String
  finalPos : Nat
  ok : Bool
deriving DecidableEq

namespace ITeXElement

/-- Drain a reader: repeat `readLine` until `atEnd`, collecting the
yielded lines.  `fuel` bounds the iteration count; every run considered
here uses `lineBound + 1`, which reaches `atEnd` before the fuel runs
out. -/
def readAll (e : ITeXElement) : Nat → Nat → RunResult
  | 0, pos => ⟨[], pos, true⟩
  | fuel + 1, pos =>
    if e.atEnd pos then ⟨[], pos, true⟩
    else
      match e.readLine pos with
      | .error _ => ⟨[], pos, false⟩
      | .ok (s, next) =>
        let r := e.readAll fuel next
        ⟨s :: r.lines, r.finalPos, r.ok⟩

/-- The full run of a fresh producer of `e` (`getSequence()` /
`getReader()` followed by draining it). -/
def run (e : ITeXElement) : RunResult :=
  e.readAll (e.lineBound + 1) 0

end ITeXElement

/-- `BaseDocument`: a preamble (the virtual `getPreamble()` result, a
plain string for `LaTeXDocument`) and the ordered element sequence. -/
structure BaseDocument where
  preamble : String
  elements : List ITeXElement
deriving DecidableEq

namespace BaseDocument

/-- The `BaseDocument::LineStart` literal (fixed line-start indent). -/
def LineStart : String := "    "

/-- The `BaseDocument::DocumentBegin` literal. -/
def DocumentBegin : String := "\\begin\x7bdocument\x7d"

/-- The `BaseDocument::DocumentEnd` literal. -/
def DocumentEnd : String := "\\end\x7bdocument\x7d"

/-- The inner `while (!elementReader->atEnd())` loop of
`BaseDocument::render` for one element, on the channel `out`:
`out << LineStart << elementReader->readLine() << "\n"`.  `LineStart`
is written before `readLine()` is evaluated, so when `readLine` throws,
the channel already holds the indent of the line that failed. -/
def renderElementLines (e : ITeXElement) : Nat → Nat → String → Except String String
  | 0, _, out => .ok out
  | fuel + 1, pos, out =>
    if e.atEnd pos then .ok out
    else
      match e.readLine pos with
      | .error _ => .error (out ++ LineStart)
      | .ok (s, next) => renderElementLines e fuel next (out ++ LineStart ++ s ++ "\n")

/-- The `for` loop of `BaseDocument::render`: a fresh reader (position
0) per element slot, the element's lines, then a blank separator line
after each element. -/
def renderElements : List ITeXElement → String → Except String String
  | [], out => .ok out
  | e :: rest, out =>
    match renderElementLines e (e.lineBound + 1) 0 out with
    | .error s => .error s
    | .ok out2 => renderElements rest (out2 ++ "\n")

/-- `BaseDocument::render(QTextStream &out)`: the preamble, a blank
separator, the document-open directive, the element blocks, and the
document-close directive, all appended to the channel `out`. -/
def render (d : BaseDocument) (out : String) : Except String String :=
  match renderElements d.elements (out ++ d.preamble ++ "\n\n" ++ DocumentBegin ++ "\n") with
  | .error s => .error s
  | .ok out2 => .ok (out2 ++ DocumentEnd ++ "\n")

end BaseDocument

namespace LuaDocument

/-- `LuaDocument::ColumnType::Alignment`. -/
inductive Alignment where
  | Left
  | Center
  | Right
deriving DecidableEq

/-- `LuaDocument::ColumnType`: a one-character type tag, an alignment,
a fixed width in mm (`uint8_t size`) and the auto-fit flag (when set,
`size` is ignored and the width is determined by LaTeX). -/
structure ColumnType where
  name : Char
  alignment : Alignment
  size : Nat
  autoFit : Bool
deriving DecidableEq

/-- `ColumnType::getAlignmentCommand` (including its fall-through
default of `"centering"`, which the three-constructor match makes
unreachable). -/
def getAlignmentCommand (a : Alignment) : String :=
  match a with
  | .Left => "raggedleft"
  | .Center => "centering"
  | .Right => "raggedright"

/-- `ColumnType::asCommand`: the auto-fit macro form
`"\newcolumntype{%1}{>{\%2\arraybackslash}X}"` when `autoFit` is set,
else the fixed-width form
`"\newcolumntype{%1}{>{\%2\arraybackslash}p{%3mm}}"` with `%3` the
decimal of `size`. -/
def ColumnType.asCommand (ct : ColumnType) : String :=
  if ct.autoFit then
    "\\newcolumntype\x7b" ++ String.singleton ct.name ++ "\x7d\x7b>\x7b\\" ++
      getAlignmentCommand ct.alignment ++ "\\arraybackslash\x7dX\x7d"
  else
    "\\newcolumntype\x7b" ++ String.singleton ct.name ++ "\x7d\x7b>\x7b\\" ++
      getAlignmentCommand ct.alignment ++ "\\arraybackslash\x7dp\x7b" ++
      toString ct.size ++ "mm\x7d\x7d"

/-- `LuaDocument::Options`: font size, margin and column separation
(all `uint8_t`, in pt / mm / pt), the three font-family names, and the
ordered custom column-type definitions. -/
structure Options where
  fontSize : Nat := 9
  margin : Nat := 15
  columnSep : Nat := 2
  mainFont : String := "Liberation Serif"
  sansFont : String := "Liberation Sans"
  monoFont : String := "Liberation Mono"
  columnsTypes : List ColumnType := [
    ⟨'T', .Center, 15, false⟩,
    ⟨'S', .Center, 4, false⟩,
    ⟨'I', .Center, 7, false⟩,
    ⟨'L', .Center, 11, false⟩,
    ⟨'C', .Center, 0, true⟩]
deriving DecidableEq

/-- The fixed document-class/geometry/font lines of
`LuaDocument::getPreamble` (the `QStringList` initializer, with the
`%1` option substitutions expanded). -/
def fixedPreambleLines (o : Options) : List String :=
  [ "\\documentclass[russian,openany,a4paper," ++ toString o.fontSize ++
      "pt,landscape]\x7bextarticle\x7d",
    "\\usepackage[russian]\x7bbabel\x7d",
    "\\usepackage[a4paper,margin=" ++ toString o.margin ++ "mm]\x7bgeometry\x7d",
    "\\pagewidth=297mm",
    "\\pageheight=210mm",
    "\\setlength\x7b\\parindent\x7d\x7b0pt\x7d",
    "\\usepackage\x7blastpage\x7d",
    "\\usepackage\x7barray\x7d",
    "\\usepackage\x7bxltabular\x7d",
    "\\usepackage\x7bfontspec\x7d",
    "\\setlength\x7b\\tabcolsep\x7d\x7b" ++ toString o.columnSep ++ "pt\x7d",
    "\\setmainfont\x7b" ++ o.mainFont ++ "\x7d",
    "\\setsansfont\x7b" ++ o.sansFont ++ "\x7d",
    "\\setmonofont\x7b" ++ o.monoFont ++ "\x7d" ]

/-- `LuaDocument::getPreamble`: the fixed lines, then `asCommand()` of
each column type appended in list order, joined with `'\n'`. -/
def getPreamble (o : Options) : String :=
  joinSep "\n" (fixedPreambleLines o ++ o.columnsTypes.map ColumnType.asCommand)

end LuaDocument

namespace PdfFileRenderer

/-- `PdfFileRenderer::CommandDescription`: a program name plus its
fixed arguments (without the output-directory and input-file arguments,
which the pipeline appends). -/
structure CommandDescription where
  name : String
  args : List String
deriving DecidableEq

/-- Outcome of one `QProcess` invocation: `notFinished` models
`waitForFinished(timeout)` returning `false` (spawn failure or
timeout), `finished code` a process that ended with the given exit
code. -/
inductive ProcessOutcome where
  | notFinished
  | finished (exitCode : Int)
deriving DecidableEq

/-- The external-process collaborator: what happens when a program is
started with an argument list. -/
def ProcessEnv : Type := String → List String → ProcessOutcome

/-- `PdfFileRenderer::outputDirOption`. -/
def outputDirOption (dir : String) : String :=
  "-output-directory=" ++ dir

/-- `PdfFileRenderer::launchCommandOverTexFile`: appends the
output-directory option and the source file path to the fixed
arguments, starts the process, and succeeds only when it finishes in
time with exit code 0. -/
def launchCommandOverTexFile (run : ProcessEnv) (dir texFile commandName : String)
    (commandArgs : List String) : Bool :=
  let launchArguments := commandArgs ++ [outputDirOption dir, texFile]
  match run commandName launchArguments with
  | .notFinished => false
  | .finished code => code == 0

/-- A recorded process invocation: the program name and the full
argument list it was started with. -/
def Invocation : Type := String × List String

/-- The invocation `launchCommandOverTexFile` performs for a command
step: its fixed arguments followed by the output-directory argument
and the source file path as the final argument. -/
def plannedInvocation (dir texFile : String) (c : CommandDescription) : Invocation :=
  (c.name, c.args ++ [outputDirOption dir, texFile])

/-- Whether a command step succeeds under the process environment. -/
def stepSucceeds (run : ProcessEnv) (dir texFile : String) (c : CommandDescription) : Bool :=
  launchCommandOverTexFile run dir texFile c.name c.args

/-- The `for (const auto &command: _commands)` loop of
`PdfFileRenderer::render`: runs the steps in order, stopping at the
first failure; returns the overall success flag and the trace of
process invocations actually performed. -/
def runCommands (run : ProcessEnv) (dir texFile : String) :
    List CommandDescription → Bool × List Invocation
  | [] => (true, [])
  | c :: rest =>
    let inv := plannedInvocation dir texFile c
    if launchCommandOverTexFile run dir texFile c.name c.args then
      let r := runCommands run dir texFile rest
      (r.1, inv :: r.2)
    else
      (false, [inv])

/-- `PdfFileRenderer::removeExistingOutputFile`: trivially succeeds
when no file exists at the output path, otherwise succeeds iff
`QFile::remove` does. -/
def removeExistingOutputFile (outFile : Option String) (removeOk : Bool) : Bool :=
  match outFile with
  | some _ => removeOk
  | none => true

/-- The I/O collaborators of one `PdfFileRenderer::render` call:
the process environment, whether writing the temp source file succeeds,
whether `QFile::remove` of a pre-existing output file succeeds, whether
`QFile::rename` succeeds, and the content of the artifact
(`main.pdf`) the steps leave in the temp directory. -/
structure PipelineEnv where
  run : ProcessEnv
  writeTexOk : Bool
  removeOk : Bool
  renameOk : Bool
  artifact : String

/-- `PdfFileRenderer::render`: write the temp source file, run the
command steps in order, remove a pre-existing output file, and rename
the produced artifact onto the output path; any failure returns
`false` and skips everything after it.  `outFile` is the content of
the file at the output path (`none` = no file).  Returns the success
flag, the process invocations performed, and the final content of the
output path. -/
def render (env : PipelineEnv) (dir texFile : String)
    (cmds : List CommandDescription) (outFile : Option String) :
    Bool × List Invocation × Option String :=
  if !env.writeTexOk then
    (false, [], outFile)
  else
    let r := runCommands env.run dir texFile cmds
    if !r.1 then
      (false, r.2, outFile)
    else if !removeExistingOutputFile outFile env.removeOk then
      (false, r.2, outFile)
    else if env.renameOk then
      (true, r.2, some env.artifact)
    else
      (false, r.2, none)

end PdfFileRenderer

/-! ### Helper lemmas: runs of the two producers -/

/-- Characterization of `getCols` as the `|`-delimited column-type
string: `|` followed by each type character with a closing `|`. -/
theorem getCols_eq (t : LaTeXLongTable) :
    t.getCols = "|" ++ concatList (t.columns.map fun c => String.singleton c.type ++ "|") := by
  have key : ∀ (cs : List Column) (acc : String),
      cs.foldl (fun cols c => cols ++ String.singleton c.type ++ "|") acc =
        acc ++ concatList (cs.map fun c => String.singleton c.type ++ "|") := by
    intro cs
    induction cs with
    | nil => intro acc; simp [concatList, string_append_empty]
    | cons c rest ih =>
      intro acc
      rw [List.foldl_cons, ih]
      simp only [List.map_cons, concatList, string_append_assoc]
  exact key t.columns "|"

/-- The line `getRow` produces for a valid row. -/
def rowLine (r : Row) : String :=
  "    " ++ joinSep " & " r.values ++ " \\\\ \\hline"

/-- `getRow` at an in-range natural index: fatal when the row's cell
count differs from the column count, otherwise the joined row line. -/
theorem getRow_nat (t : LaTeXLongTable) (k : Nat) (hk : k < t.rows.length) :
    t.getRow (k : Int) =
      if t.rows[k].values.length ≠ t.columns.length then .error ()
      else .ok (rowLine t.rows[k]) := by
  unfold LaTeXLongTable.getRow
  rw [if_neg (by omega)]
  simp only [Int.toNat_natCast, List.getD_eq_getElem t.rows ⟨[]⟩ hk, rowLine]

/-- `readLine` at a data-row position `3 + k`, `k < rows.count()`:
dispatches to `getRow k`. -/
theorem table_readLine_row (t : LaTeXLongTable) (k : Nat) (hk : k < t.rows.length) :
    t.readLine (3 + k) =
      if t.rows[k].values.length ≠ t.columns.length then .error ()
      else .ok (rowLine t.rows[k], 3 + k + 1) := by
  unfold LaTeXLongTable.readLine
  rw [if_neg (by simp [LaTeXLongTable.atEnd] <;> omega)]
  rw [if_neg (by simp)]
  rw [if_neg (by simp <;> omega)]
  rw [if_neg (by simp <;> omega)]
  rw [if_neg (by simp [LaTeXLongTable.allRowsReady]; omega)]
  have hidx : LaTeXLongTable.getCurrentRowIndex (3 + k) = (k : Int) := by
    simp only [LaTeXLongTable.getCurrentRowIndex]
    omega
  rw [hidx, getRow_nat t k hk]
  by_cases hbad : t.rows[k].values.length ≠ t.columns.length
  · simp [hbad]
  · simp [hbad]

/-- `readLine` at position 0: the table-open directive. -/
theorem table_readLine_zero (t : LaTeXLongTable) :
    t.readLine 0 = .ok (t.getTableBegin, 1) := by
  unfold LaTeXLongTable.readLine
  rw [if_neg (by simp [LaTeXLongTable.atEnd])]
  rw [if_pos (by simp)]

/-- `readLine` at position 1: the table-label line. -/
theorem table_readLine_one (t : LaTeXLongTable) :
    t.readLine 1 = .ok (t.getTableLabel, 2) := by
  unfold LaTeXLongTable.readLine
  rw [if_neg (by simp [LaTeXLongTable.atEnd] <;> omega)]
  rw [if_neg (by simp)]
  rw [if_pos (by simp)]

/-- `readLine` at position 2: the table-header line. -/
theorem table_readLine_two (t : LaTeXLongTable) :
    t.readLine 2 = .ok (t.getTableHeader, 3) := by
  unfold LaTeXLongTable.readLine
  rw [if_neg (by simp [LaTeXLongTable.atEnd] <;> omega)]
  rw [if_neg (by simp)]
  rw [if_neg (by simp)]
  rw [if_pos (by simp)]

/-- `readLine` at position `rows.count() + 3` (`allRowsReady`): the
table-close directive. -/
theorem table_readLine_close (t : LaTeXLongTable) :
    t.readLine (3 + t.rows.length) = .ok (LaTeXLongTable.TableEnd, 3 + t.rows.length + 1) := by
  unfold LaTeXLongTable.readLine
  rw [if_neg (by simp [LaTeXLongTable.atEnd] <;> omega)]
  rw [if_neg (by simp <;> omega)]
  rw [if_neg (by simp <;> omega)]
  rw [if_neg (by simp <;> omega)]
  rw [if_pos (by simp [LaTeXLongTable.allRowsReady] <;> omega)]

/-- One non-final `readAll` step whose `readLine` yields a line. -/
theorem readAll_step_ok (e : ITeXElement) (fuel pos : Nat) (s : String) (next : Nat)
    (hne : e.atEnd pos = false) (hrl : e.readLine pos = .ok (s, next)) :
    e.readAll (fuel + 1) pos =
      ⟨s :: (e.readAll fuel next).lines, (e.readAll fuel next).finalPos,
        (e.readAll fuel next).ok⟩ := by
  simp only [ITeXElement.readAll, hne, hrl]
  rfl

/-- One `readAll` step whose `readLine` throws. -/
theorem readAll_step_err (e : ITeXElement) (fuel pos : Nat)
    (hne : e.atEnd pos = false) (hrl : e.readLine pos = .error ()) :
    e.readAll (fuel + 1) pos = ⟨[], pos, false⟩ := by
  simp only [ITeXElement.readAll, hne, hrl]
  rfl

/-- A `readAll` step at the end position stops. -/
theorem readAll_at_end (e : ITeXElement) (fuel pos : Nat) (h : e.atEnd pos = true) :
    e.readAll (fuel + 1) pos = ⟨[], pos, true⟩ := by
  simp only [ITeXElement.readAll, h]
  rfl

/-- Draining the row phase of a table reader when every remaining row
is valid: the remaining row lines, the close directive, and the final
position `rows.count() + 4`. -/
theorem table_readAll_rows_ok (t : LaTeXLongTable)
    (h : ∀ r ∈ t.rows, r.values.length = t.columns.length) :
    ∀ (n k : Nat), k + n = t.rows.length →
      (ITeXElement.longTable t).readAll (n + 1 + 1) (3 + k) =
        ⟨(t.rows.drop k).map rowLine ++ [LaTeXLongTable.TableEnd], t.rows.length + 4, true⟩ := by
  intro n
  induction n with
  | zero =>
    intro k hk
    have hkr : k = t.rows.length := by omega
    subst hkr
    rw [readAll_step_ok (ITeXElement.longTable t) (0 + 1) (3 + t.rows.length)
          LaTeXLongTable.TableEnd (3 + t.rows.length + 1)
          (by simp [ITeXElement.atEnd, LaTeXLongTable.atEnd] <;> omega)
          (by simpa [ITeXElement.readLine] using table_readLine_close t)]
    rw [readAll_at_end (ITeXElement.longTable t) 0 (3 + t.rows.length + 1)
          (by simp [ITeXElement.atEnd, LaTeXLongTable.atEnd] <;> omega)]
    simp only [List.drop_length, List.map_nil, List.nil_append]
    have h4 : 3 + t.rows.length + 1 = t.rows.length + 4 := by omega
    rw [h4]
  | succ n ih =>
    intro k hk
    have hklt : k < t.rows.length := by omega
    have hrl : (ITeXElement.longTable t).readLine (3 + k) =
        .ok (rowLine t.rows[k], 3 + (k + 1)) := by
      simp only [ITeXElement.readLine]
      rw [table_readLine_row t k hklt]
      rw [if_neg (by simpa using h t.rows[k] (List.getElem_mem hklt))]
      have h31 : 3 + k + 1 = 3 + (k + 1) := by omega
      rw [h31]
    rw [readAll_step_ok (ITeXElement.longTable t) (n + 1 + 1) (3 + k)
          (rowLine t.rows[k]) (3 + (k + 1))
          (by simp [ITeXElement.atEnd, LaTeXLongTable.atEnd] <;> omega) hrl]
    rw [ih (k + 1) (by omega)]
    rw [← List.getElem_cons_drop t.rows k hklt, List.map_cons, List.cons_append]

/-- Draining the row phase of a table reader when some remaining row is
invalid: the run ends with the exception escaping. -/
theorem table_readAll_rows_err (t : LaTeXLongTable) :
    ∀ (n k : Nat), k + n = t.rows.length →
      (∃ r ∈ t.rows.drop k, r.values.length ≠ t.columns.length) →
      ((ITeXElement.longTable t).readAll (n + 1 + 1) (3 + k)).ok = false := by
  intro n
  induction n with
  | zero =>
    intro k hk hbad
    have hkr : k = t.rows.length := by omega
    subst hkr
    simp [List.drop_length] at hbad
  | succ n ih =>
    intro k hk hbad
    have hklt : k < t.rows.length := by omega
    by_cases hrow : t.rows[k].values.length ≠ t.columns.length
    · have hrl : (ITeXElement.longTable t).readLine (3 + k) = .error () := by
        simp only [ITeXElement.readLine]
        rw [table_readLine_row t k hklt, if_pos hrow]
      rw [readAll_step_err (ITeXElement.longTable t) (n + 1 + 1) (3 + k)
            (by simp [ITeXElement.atEnd, LaTeXLongTable.atEnd] <;> omega) hrl]
    · have hrl : (ITeXElement.longTable t).readLine (3 + k) =
          .ok (rowLine t.rows[k], 3 + (k + 1)) := by
        simp only [ITeXElement.readLine]
        rw [table_readLine_row t k hklt, if_neg hrow]
        have h31 : 3 + k + 1 = 3 + (k + 1) := by omega
        rw [h31]
      rw [readAll_step_ok (ITeXElement.longTable t) (n + 1 + 1) (3 + k)
            (rowLine t.rows[k]) (3 + (k + 1))
            (by simp [ITeXElement.atEnd, LaTeXLongTable.atEnd] <;> omega) hrl]
      apply ih (k + 1) (by omega)
      rcases hbad with ⟨r, hr, hlen⟩
      rw [← List.getElem_cons_drop t.rows k hklt] at hr
      rcases List.mem_cons.mp hr with heq | htail
      · exact absurd (heq ▸ hlen) hrow
      · exact ⟨r, htail, hlen⟩

/-- The first three reads of a fresh table reader: the open directive,
the label line and the header line, leaving the reader at position 3
with `rows.count() + 1 + 1` fuel remaining. -/
theorem table_run_unfold (t : LaTeXLongTable) :
    (ITeXElement.longTable t).run =
      ⟨t.getTableBegin :: t.getTableLabel :: t.getTableHeader ::
          ((ITeXElement.longTable t).readAll (t.rows.length + 1 + 1) 3).lines,
        ((ITeXElement.longTable t).readAll (t.rows.length + 1 + 1) 3).finalPos,
        ((ITeXElement.longTable t).readAll (t.rows.length + 1 + 1) 3).ok⟩ := by
  have hf : (ITeXElement.longTable t).lineBound + 1 = t.rows.length + 3 + 1 + 1 := rfl
  unfold ITeXElement.run
  rw [hf]
  rw [readAll_step_ok (ITeXElement.longTable t) (t.rows.length + 3 + 1) 0 t.getTableBegin 1
        (by simp [ITeXElement.atEnd, LaTeXLongTable.atEnd])
        (by simpa [ITeXElement.readLine] using table_readLine_zero t)]
  rw [show t.rows.length + 3 + 1 = (t.rows.length + 3) + 1 from rfl]
  rw [readAll_step_ok (ITeXElement.longTable t) (t.rows.length + 3) 1 t.getTableLabel 2
        (by simp [ITeXElement.atEnd, LaTeXLongTable.atEnd] <;> omega)
        (by simpa [ITeXElement.readLine] using table_readLine_one t)]
  rw [show t.rows.length + 3 = (t.rows.length + 2) + 1 from rfl]
  rw [readAll_step_ok (ITeXElement.longTable t) (t.rows.length + 2) 2 t.getTableHeader 3
        (by simp [ITeXElement.atEnd, LaTeXLongTable.atEnd] <;> omega)
        (by simpa [ITeXElement.readLine] using table_readLine_two t)]

/-- The full run of a fresh producer of a table whose rows are all
valid. -/
theorem table_run_ok (t : LaTeXLongTable)
    (h : ∀ r ∈ t.rows, r.values.length = t.columns.length) :
    (ITeXElement.longTable t).run =
      ⟨t.getTableBegin :: t.getTableLabel :: t.getTableHeader ::
          (t.rows.map rowLine ++ [LaTeXLongTable.TableEnd]), t.rows.length + 4, true⟩ := by
  rw [table_run_unfold t]
  rw [show (3 : Nat) = 3 + 0 from rfl]
  rw [table_readAll_rows_ok t h t.rows.length 0 (by omega)]
  rw [List.drop_zero]

/-- The full run of a fresh producer of a table with an invalid row
ends with the exception escaping. -/
theorem table_run_err (t : LaTeXLongTable)
    (hbad : ∃ r ∈ t.rows, r.values.length ≠ t.columns.length) :
    (ITeXElement.longTable t).run.ok = false := by
  rw [table_run_unfold t]
  rw [show (3 : Nat) = 3 + 0 from rfl]
  exact table_readAll_rows_err t t.rows.length 0 (by omega) (by simpa using hbad)

/-- The full run of a fresh paragraph producer: the sentences in
order. -/
theorem paragraph_run (p : LaTeXParagraph) :
    (ITeXElement.paragraph p).run = ⟨p.sentences, p.sentences.length, true⟩ := by
  have key : ∀ (n pos : Nat), pos + n = p.sentences.length →
      (ITeXElement.paragraph p).readAll (n + 1) pos =
        ⟨p.sentences.drop pos, p.sentences.length, true⟩ := by
    intro n
    induction n with
    | zero =>
      intro pos hp
      rw [readAll_at_end (ITeXElement.paragraph p) 0 pos
            (by simp [ITeXElement.atEnd, LaTeXParagraph.atEnd]; omega)]
      have hpe : pos = p.sentences.length := by omega
      rw [hpe, List.drop_length]
    | succ n ih =>
      intro pos hp
      have hlt : pos < p.sentences.length := by omega
      have hrl : (ITeXElement.paragraph p).readLine pos =
          .ok (p.sentences[pos], pos + 1) := by
        simp only [ITeXElement.readLine, LaTeXParagraph.readLine]
        rw [if_neg (by simp [LaTeXParagraph.atEnd]; omega)]
        rw [List.getD_eq_getElem p.sentences "" hlt]
      rw [readAll_step_ok (ITeXElement.paragraph p) (n + 1) pos p.sentences[pos] (pos + 1)
            (by simp [ITeXElement.atEnd, LaTeXParagraph.atEnd]; omega) hrl]
      rw [ih (pos + 1) (by omega)]
      rw [← List.getElem_cons_drop p.sentences pos hlt]
  have hb : (ITeXElement.paragraph p).lineBound = p.sentences.length := rfl
  unfold ITeXElement.run
  rw [hb, key p.sentences.length 0 (by omega), List.drop_zero]

/-- `readLine` called at the end position returns the empty string and
does not advance the position. -/
theorem table_readLine_at_end (t : LaTeXLongTable) (pos : Nat) (h : t.atEnd pos = true) :
    t.readLine pos = .ok ("", pos) := by
  unfold LaTeXLongTable.readLine
  rw [if_pos h]

/-- Every row index that `readLine` ever passes to `rows.at(...)` is in
`[0, rows.count())`. -/
theorem rowAccessIndex_in_range (t : LaTeXLongTable) (pos : Nat) (i : Int)
    (h : t.rowAccessIndex pos = some i) : 0 ≤ i ∧ i < (t.rows.length : Int) := by
  unfold LaTeXLongTable.rowAccessIndex at h
  simp only [LaTeXLongTable.atEnd, LaTeXLongTable.allRowsReady,
    LaTeXLongTable.getCurrentRowIndex] at h
  split at h
  · exact Option.noConfusion h
  next h1 =>
  split at h
  · exact Option.noConfusion h
  next h2 =>
  split at h
  · exact Option.noConfusion h
  next h3 =>
  split at h
  · exact Option.noConfusion h
  next h4 =>
  split at h
  · exact Option.noConfusion h
  next h5 =>
  split at h
  · exact Option.noConfusion h
  next h6 =>
  have hi : (pos : Int) - 3 = i := by
    injection h
  simp only [beq_iff_eq] at h1 h2 h3 h4 h5
  push_neg at h6
  omega

/-! ### Helper lemmas: the document render loop -/

/-- The text the render loop writes for the lines `ls`: each line with
the fixed line-start indent and a terminating newline. -/
def indentedBlock (ls : List String) : String :=
  concatList (ls.map fun l => "    " ++ l ++ "\n")

/-- The text one element slot contributes to the render: the indented
lines of a fresh run of the element, then the blank separator line. -/
def elementBlock (e : ITeXElement) : String :=
  indentedBlock e.run.lines ++ "\n"

/-- One non-final render-loop step. -/
theorem renderElementLines_step_ok (e : ITeXElement) (fuel pos : Nat) (s : String)
    (next : Nat) (out : String) (hne : e.atEnd pos = false)
    (hrl : e.readLine pos = .ok (s, next)) :
    BaseDocument.renderElementLines e (fuel + 1) pos out =
      BaseDocument.renderElementLines e fuel next (out ++ "    " ++ s ++ "\n") := by
  simp only [BaseDocument.renderElementLines, hne, hrl]
  rfl

/-- A render-loop step whose `readLine` throws: the exception escapes
with the indent already written to the channel. -/
theorem renderElementLines_step_err (e : ITeXElement) (fuel pos : Nat) (out : String)
    (hne : e.atEnd pos = false) (hrl : e.readLine pos = .error ()) :
    BaseDocument.renderElementLines e (fuel + 1) pos out = .error (out ++ "    ") := by
  simp only [BaseDocument.renderElementLines, hne, hrl]
  rfl

/-- A render-loop step at the end position stops. -/
theorem renderElementLines_at_end (e : ITeXElement) (fuel pos : Nat) (out : String)
    (h : e.atEnd pos = true) :
    BaseDocument.renderElementLines e (fuel + 1) pos out = .ok out := by
  simp only [BaseDocument.renderElementLines, h]
  rfl

/-- The render loop for one element against the drained reader: on a
completed run the channel gains the indented lines; on a failed run the
exception escapes with the lines before the failure and the indent of
the failing line on the channel. -/
theorem renderElementLines_eq (e : ITeXElement) :
    ∀ (fuel pos : Nat) (out : String),
      BaseDocument.renderElementLines e fuel pos out =
        (if (e.readAll fuel pos).ok then
          .ok (out ++ indentedBlock (e.readAll fuel pos).lines)
        else
          .error (out ++ indentedBlock (e.readAll fuel pos).lines ++ "    ")) := by
  intro fuel
  induction fuel with
  | zero =>
    intro pos out
    simp only [BaseDocument.renderElementLines, ITeXElement.readAll, indentedBlock,
      List.map_nil, concatList, if_pos]
    rw [string_append_empty]
  | succ fuel ih =>
    intro pos out
    cases hend : e.atEnd pos with
    | true =>
      rw [renderElementLines_at_end e fuel pos out hend,
        readAll_at_end e fuel pos hend]
      simp only [indentedBlock, List.map_nil, concatList, if_pos]
      rw [string_append_empty]
    | false =>
      cases hrl : e.readLine pos with
      | error a =>
        rw [renderElementLines_step_err e fuel pos out hend (by rw [hrl])]
        rw [readAll_step_err e fuel pos hend (by rw [hrl])]
        simp only [indentedBlock, List.map_nil, concatList, Bool.false_eq_true, if_false]
        rw [string_append_empty]
      | ok v =>
        obtain ⟨s, next⟩ := v
        rw [renderElementLines_step_ok e fuel pos s next out hend hrl]
        rw [readAll_step_ok e fuel pos s next hend hrl]
        rw [ih next (out ++ "    " ++ s ++ "\n")]
        cases hok : (e.readAll fuel next).ok with
        | true =>
          simp only [hok, if_pos, indentedBlock, List.map_cons, concatList,
            string_append_assoc]
        | false =>
          simp only [hok, Bool.false_eq_true, if_neg, indentedBlock, List.map_cons,
            concatList, string_append_assoc]

/-- `run` is `readAll` with the exact fuel the render uses. -/
theorem run_readAll (e : ITeXElement) : e.readAll (e.lineBound + 1) 0 = e.run := rfl

/-- The element-loop step for an element whose inner loop completes. -/
theorem renderElements_cons_ok (e : ITeXElement) (rest : List ITeXElement)
    (out out2 : String)
    (hX : BaseDocument.renderElementLines e (e.lineBound + 1) 0 out = .ok out2) :
    BaseDocument.renderElements (e :: rest) out =
      BaseDocument.renderElements rest (out2 ++ "\n") := by
  simp only [BaseDocument.renderElements, hX]

/-- The element-loop step for an element whose inner loop throws. -/
theorem renderElements_cons_err (e : ITeXElement) (rest : List ITeXElement)
    (out s : String)
    (hX : BaseDocument.renderElementLines e (e.lineBound + 1) 0 out = .error s) :
    BaseDocument.renderElements (e :: rest) out = .error s := by
  simp only [BaseDocument.renderElements, hX]

/-- The element loop of `render` over a list of elements that all
complete: the channel gains each element's block in order. -/
theorem renderElements_ok :
    ∀ (es : List ITeXElement) (out : String), (∀ e ∈ es, e.run.ok = true) →
      BaseDocument.renderElements es out = .ok (out ++ concatList (es.map elementBlock)) := by
  intro es
  induction es with
  | nil =>
    intro out h
    simp only [BaseDocument.renderElements, List.map_nil, concatList]
    rw [string_append_empty]
  | cons e rest ih =>
    intro out h
    have he : e.run.ok = true := h e (List.mem_cons_self e rest)
    have hX : BaseDocument.renderElementLines e (e.lineBound + 1) 0 out =
        .ok (out ++ indentedBlock e.run.lines) := by
      rw [renderElementLines_eq e (e.lineBound + 1) 0 out, run_readAll e, if_pos he]
    rw [renderElements_cons_ok e rest out (out ++ indentedBlock e.run.lines) hX]
    rw [ih (out ++ indentedBlock e.run.lines ++ "\n")
          (fun x hx => h x (List.mem_cons_of_mem e hx))]
    simp only [List.map_cons, concatList, elementBlock, string_append_assoc]

/-- When the element loop aborts with the exception, the channel holds
its prior content extended by the text written before the failure. -/
theorem renderElements_err_extends :
    ∀ (es : List ITeXElement) (out s : String),
      BaseDocument.renderElements es out = .error s → ∃ u, s = out ++ u := by
  intro es
  induction es with
  | nil =>
    intro out s h
    simp only [BaseDocument.renderElements] at h
    exact Except.noConfusion h
  | cons e rest ih =>
    intro out s h
    cases hok : e.run.ok with
    | false =>
      have hX : BaseDocument.renderElementLines e (e.lineBound + 1) 0 out =
          .error (out ++ indentedBlock e.run.lines ++ "    ") := by
        rw [renderElementLines_eq e (e.lineBound + 1) 0 out, run_readAll e, hok]
        simp only [Bool.false_eq_true, if_false]
      rw [renderElements_cons_err e rest out _ hX] at h
      injection h with hs
      exact ⟨indentedBlock e.run.lines ++ "    ",
        by rw [← hs]; simp [string_append_assoc]⟩
    | true =>
      have hX : BaseDocument.renderElementLines e (e.lineBound + 1) 0 out =
          .ok (out ++ indentedBlock e.run.lines) := by
        rw [renderElementLines_eq e (e.lineBound + 1) 0 out, run_readAll e, if_pos hok]
      rw [renderElements_cons_ok e rest out _ hX] at h
      obtain ⟨u, hu⟩ := ih (out ++ indentedBlock e.run.lines ++ "\n") s h
      exact ⟨indentedBlock e.run.lines ++ "\n" ++ u,
        by rw [hu]; simp [string_append_assoc]⟩

/-- `BaseDocument::render` on a document whose elements all complete:
the envelope, each element's block, and the close directive, appended
to the channel. -/
theorem render_ok (d : BaseDocument) (out : String)
    (h : ∀ e ∈ d.elements, e.run.ok = true) :
    d.render out =
      .ok (out ++ d.preamble ++ "\n\n" ++ BaseDocument.DocumentBegin ++ "\n" ++
        concatList (d.elements.map elementBlock) ++ BaseDocument.DocumentEnd ++ "\n") := by
  unfold BaseDocument.render
  rw [renderElements_ok d.elements (out ++ d.preamble ++ "\n\n" ++ BaseDocument.DocumentBegin ++ "\n") h]

/-- When `render` aborts with the exception, the channel holds its
prior content, the preamble, the separator and the document-open line,
extended by what was written before the failure. -/
theorem render_err_extends (d : BaseDocument) (out s : String)
    (h : d.render out = .error s) :
    ∃ u, s = out ++ d.preamble ++ "\n\n" ++ BaseDocument.DocumentBegin ++ "\n" ++ u := by
  unfold BaseDocument.render at h
  cases hre : BaseDocument.renderElements d.elements
      (out ++ d.preamble ++ "\n\n" ++ BaseDocument.DocumentBegin ++ "\n") with
  | error s2 =>
    rw [hre] at h
    injection h with hs
    exact hs ▸ renderElements_err_extends d.elements _ s2 hre
  | ok out2 =>
    rw [hre] at h
    exact Except.noConfusion h

/-! ### Helper lemmas: the compile pipeline -/

namespace PdfFileRenderer

/-- The command loop succeeds iff every step succeeds. -/
theorem runCommands_fst (run : ProcessEnv) (dir tex : String) :
    ∀ (cmds : List CommandDescription),
      (runCommands run dir tex cmds).1 = cmds.all (stepSucceeds run dir tex) := by
  intro cmds
  induction cmds with
  | nil => rfl
  | cons c rest ih =>
    simp only [runCommands, List.all_cons, stepSucceeds]
    cases hc : launchCommandOverTexFile run dir tex c.name c.args with
    | true => simp [hc, ih]
    | false => simp [hc]

/-- The command loop performs, in order, the planned invocation of
every step up to and including the first failing one (all steps when
none fails). -/
theorem runCommands_snd (run : ProcessEnv) (dir tex : String) :
    ∀ (cmds : List CommandDescription),
      (runCommands run dir tex cmds).2 =
        (cmds.takeWhile (stepSucceeds run dir tex) ++
          (cmds.dropWhile (stepSucceeds run dir tex)).take 1).map
          (plannedInvocation dir tex) := by
  intro cmds
  induction cmds with
  | nil => rfl
  | cons c rest ih =>
    simp only [runCommands]
    cases hc : launchCommandOverTexFile run dir tex c.name c.args with
    | true =>
      rw [List.takeWhile_cons_of_pos (by simpa [stepSucceeds] using hc)]
      rw [List.dropWhile_cons_of_pos (by simpa [stepSucceeds] using hc)]
      simp [hc, ih]
    | false =>
      rw [List.takeWhile_cons_of_neg (by simpa [stepSucceeds] using hc)]
      rw [List.dropWhile_cons_of_neg (by simpa [stepSucceeds] using hc)]
      simp [hc]

/-- When every step succeeds the loop performs every planned
invocation. -/
theorem runCommands_snd_all (run : ProcessEnv) (dir tex : String)
    (cmds : List CommandDescription)
    (h : (runCommands run dir tex cmds).1 = true) :
    (runCommands run dir tex cmds).2 = cmds.map (plannedInvocation dir tex) := by
  rw [runCommands_snd]
  rw [runCommands_fst] at h
  have hall : ∀ c ∈ cmds, stepSucceeds run dir tex c = true := by
    simpa [List.all_eq_true] using h
  rw [List.takeWhile_eq_self_iff.mpr hall, List.dropWhile_eq_nil_iff.mpr hall]
  simp

end PdfFileRenderer

namespace PdfFileRenderer

/-- `render` when some command step fails: overall failure, and the
output path is left untouched. -/
theorem render_cmd_failure (env : PipelineEnv) (dir tex : String)
    (cmds : List CommandDescription) (outFile : Option String)
    (hw : env.writeTexOk = true)
    (hfail : (runCommands env.run dir tex cmds).1 = false) :
    render env dir tex cmds outFile =
      (false, (runCommands env.run dir tex cmds).2, outFile) := by
  simp [render, hw, hfail]

/-- `render` when everything succeeds: the artifact is moved onto the
output path. -/
theorem render_success (env : PipelineEnv) (dir tex : String)
    (cmds : List CommandDescription) (outFile : Option String)
    (hw : env.writeTexOk = true)
    (hok : (runCommands env.run dir tex cmds).1 = true)
    (hrm : removeExistingOutputFile outFile env.removeOk = true)
    (hrn : env.renameOk = true) :
    render env dir tex cmds outFile =
      (true, (runCommands env.run dir tex cmds).2, some env.artifact) := by
  simp [render, hw, hok, hrm, hrn]

/-- `render` when the command steps succeed but removing the
pre-existing output file fails: overall failure, the old file stays. -/
theorem render_remove_failure (env : PipelineEnv) (dir tex : String)
    (cmds : List CommandDescription) (outFile : Option String)
    (hw : env.writeTexOk = true)
    (hok : (runCommands env.run dir tex cmds).1 = true)
    (hrm : removeExistingOutputFile outFile env.removeOk = false) :
    render env dir tex cmds outFile =
      (false, (runCommands env.run dir tex cmds).2, outFile) := by
  simp [render, hw, hok, hrm]

end PdfFileRenderer

/-! ### The claims -/

/-- C1: for every LongTable with C columns and R rows of exactly C
cells, a freshly created producer yields exactly R+4 lines in order:
the table-open directive parameterized by the `|`-delimited column-type
string, the table-label line, the table-header line, one line per data
row in append order, and (0-indexed line R+3) the table-close
directive; after that line `atEnd` is true. -/
theorem c1_longtable_producer_lines (t : LaTeXLongTable)
    (h : ∀ r ∈ t.rows, r.values.length = t.columns.length) :
    (ITeXElement.longTable t).run =
      ⟨("\\begin\x7bxltabular\x7d[l]\x7b\\textwidth\x7d\x7b" ++
          ("|" ++ concatList (t.columns.map fun c => String.singleton c.type ++ "|")) ++
          "\x7d") ::
        ("    " ++ "\\multicolumn\x7b" ++ toString t.columns.length ++
          "\x7d\x7bl\x7d\x7b\\hspace\x7b-\\tabcolsep\x7d" ++ t.label ++ "\x7d \\\\ \\hline") ::
        ("    " ++ joinSep " & " (t.columns.map fun c => c.name) ++ " \\\\ \\hline") ::
        (t.rows.map rowLine ++ ["\\end\x7bxltabular\x7d"]),
        t.rows.length + 4, true⟩ ∧
    (ITeXElement.longTable t).run.lines.length = t.rows.length + 4 ∧
    (ITeXElement.longTable t).atEnd (ITeXElement.longTable t).run.finalPos = true := by
  have hrun := table_run_ok t h
  refine ⟨?_, ?_, ?_⟩
  · rw [hrun]
    simp only [LaTeXLongTable.getTableBegin, getCols_eq, LaTeXLongTable.getTableLabel,
      LaTeXLongTable.getTableHeader, LaTeXLongTable.TableEnd]
  · rw [hrun]
    simp only [List.length_cons, List.length_append, List.length_map,
      List.length_singleton, List.length_nil]
  · rw [hrun]
    simp [ITeXElement.atEnd, LaTeXLongTable.atEnd]

/-- Witness for C1 at the table of the spec's example (column types
`T,C,C`, one row): five lines, the open directive carrying `|T|C|C|`. -/
theorem c1_longtable_producer_lines_witness :
    (∀ r ∈ (⟨"L", [⟨"Time", 'T'⟩, ⟨"Num", 'C'⟩, ⟨"Name", 'C'⟩],
        [⟨["a", "b", "c"]⟩]⟩ : LaTeXLongTable).rows,
      r.values.length =
        (⟨"L", [⟨"Time", 'T'⟩, ⟨"Num", 'C'⟩, ⟨"Name", 'C'⟩],
          [⟨["a", "b", "c"]⟩]⟩ : LaTeXLongTable).columns.length) ∧
    (ITeXElement.longTable ⟨"L", [⟨"Time", 'T'⟩, ⟨"Num", 'C'⟩, ⟨"Name", 'C'⟩],
        [⟨["a", "b", "c"]⟩]⟩).run =
      ⟨["\\begin\x7bxltabular\x7d[l]\x7b\\textwidth\x7d\x7b|T|C|C|\x7d",
        "    \\multicolumn\x7b3\x7d\x7bl\x7d\x7b\\hspace\x7b-\\tabcolsep\x7dL\x7d \\\\ \\hline",
        "    Time & Num & Name \\\\ \\hline",
        "    a & b & c \\\\ \\hline",
        "\\end\x7bxltabular\x7d"], 5, true⟩ := by
  refine ⟨by decide, ?_⟩
  rw [(c1_longtable_producer_lines
    ⟨"L", [⟨"Time", 'T'⟩, ⟨"Num", 'C'⟩, ⟨"Name", 'C'⟩], [⟨["a", "b", "c"]⟩]⟩
    (by decide)).1]
  decide

/-- C2 (evaluating the code at the failing input): the Paragraph
producer's exhaustion is not permanent.  With one sentence, the reader
is exhausted after one `readLine`; a further `readLine` at exhaustion
returns the empty string but still advances `_position`, after which
`atEnd` reports `false` again, contradicting the claimed permanent
exhaustion. -/
theorem c2_paragraph_exhaustion_not_permanent :
    (LaTeXParagraph.readLine ⟨["a"]⟩ 0).1 = "a" ∧
    LaTeXParagraph.atEnd ⟨["a"]⟩ (LaTeXParagraph.readLine ⟨["a"]⟩ 0).2 = true ∧
    (LaTeXParagraph.readLine ⟨["a"]⟩ 1).1 = "" ∧
    LaTeXParagraph.atEnd ⟨["a"]⟩ (LaTeXParagraph.readLine ⟨["a"]⟩ 1).2 = false := by
  decide

/-- C3: for every LongTable containing some row whose cell count
differs from the column count, a fresh producer run ends with the fatal
exception escaping. -/
theorem c3_longtable_row_mismatch_fatal (t : LaTeXLongTable)
    (h : ∃ r ∈ t.rows, r.values.length ≠ t.columns.length) :
    (ITeXElement.longTable t).run.ok = false :=
  table_run_err t h

/-- Witness for C3 at the spec's example: columns
`[("Time",'T'),("Id",'C')]` and the single row `["only-one-value"]`. -/
theorem c3_longtable_row_mismatch_fatal_witness :
    (∃ r ∈ (⟨"L", [⟨"Time", 'T'⟩, ⟨"Id", 'C'⟩],
        [⟨["only-one-value"]⟩]⟩ : LaTeXLongTable).rows,
      r.values.length ≠
        (⟨"L", [⟨"Time", 'T'⟩, ⟨"Id", 'C'⟩],
          [⟨["only-one-value"]⟩]⟩ : LaTeXLongTable).columns.length) ∧
    (ITeXElement.longTable ⟨"L", [⟨"Time", 'T'⟩, ⟨"Id", 'C'⟩],
        [⟨["only-one-value"]⟩]⟩).run.ok = false :=
  ⟨by decide,
    c3_longtable_row_mismatch_fatal
      ⟨"L", [⟨"Time", 'T'⟩, ⟨"Id", 'C'⟩], [⟨["only-one-value"]⟩]⟩ (by decide)⟩

/-- C4 counterexample: rendering a document whose table has a
mismatched row raises the fatal condition, yet the output channel is
left holding a non-empty prefix of the document text (the preamble,
separator, document-open line and the table's first lines), refuting
"no prefix of the document text is left behind on the output
channel". -/
theorem c4_leftover_output_counterexample :
    BaseDocument.render
        ⟨"P", [.longTable ⟨"L", [⟨"Time", 'T'⟩, ⟨"Id", 'C'⟩], [⟨["only-one-value"]⟩]⟩]⟩
        "" =
      .error ("P\n\n\\begin\x7bdocument\x7d\n    \\begin\x7bxltabular\x7d[l]\x7b\\textwidth\x7d\x7b|T|C|\x7d\n        \\multicolumn\x7b2\x7d\x7bl\x7d\x7b\\hspace\x7b-\\tabcolsep\x7dL\x7d \\\\ \\hline\n        Time & Id \\\\ \\hline\n    ") ∧
    ("P\n\n\\begin\x7bdocument\x7d\n    \\begin\x7bxltabular\x7d[l]\x7b\\textwidth\x7d\x7b|T|C|\x7d\n        \\multicolumn\x7b2\x7d\x7bl\x7d\x7b\\hspace\x7b-\\tabcolsep\x7dL\x7d \\\\ \\hline\n        Time & Id \\\\ \\hline\n    " : String) ≠ "" := by
  refine ⟨rfl, by decide⟩

/-- C4 as amended: when the structural content error is raised
mid-render, the render aborts at that point (the exception escapes),
but the text already emitted — the prior channel content followed by
the preamble, the blank separator, the document-open line and whatever
was written before the failure — remains on the output channel; the
emitted prefix is not discarded. -/
theorem c4_render_abort_output_retained (d : BaseDocument) (out s : String)
    (h : d.render out = .error s) :
    ∃ u, s = out ++ d.preamble ++ "\n\n" ++ BaseDocument.DocumentBegin ++ "\n" ++ u :=
  render_err_extends d out s h

/-- Witness for the amended C4 at the counterexample document. -/
theorem c4_render_abort_output_retained_witness :
    (BaseDocument.render
        ⟨"P", [.longTable ⟨"L", [⟨"Time", 'T'⟩, ⟨"Id", 'C'⟩], [⟨["only-one-value"]⟩]⟩]⟩
        "" =
      .error ("P\n\n\\begin\x7bdocument\x7d\n    \\begin\x7bxltabular\x7d[l]\x7b\\textwidth\x7d\x7b|T|C|\x7d\n        \\multicolumn\x7b2\x7d\x7bl\x7d\x7b\\hspace\x7b-\\tabcolsep\x7dL\x7d \\\\ \\hline\n        Time & Id \\\\ \\hline\n    ")) ∧
    (∃ u, ("P\n\n\\begin\x7bdocument\x7d\n    \\begin\x7bxltabular\x7d[l]\x7b\\textwidth\x7d\x7b|T|C|\x7d\n        \\multicolumn\x7b2\x7d\x7bl\x7d\x7b\\hspace\x7b-\\tabcolsep\x7dL\x7d \\\\ \\hline\n        Time & Id \\\\ \\hline\n    " : String) =
      "" ++ "P" ++ "\n\n" ++ BaseDocument.DocumentBegin ++ "\n" ++ u) :=
  ⟨rfl,
    c4_render_abort_output_retained
      ⟨"P", [.longTable ⟨"L", [⟨"Time", 'T'⟩, ⟨"Id", 'C'⟩], [⟨["only-one-value"]⟩]⟩]⟩
      "" _ rfl⟩

/-- C5: `render` emits exactly: the preamble, a blank separator, the
document-open directive, then for every element slot in sequence the
lines of a fresh producer run, each prefixed by the fixed line-start
indent and newline-terminated, a blank separator line after each
element's lines, and finally the document-close directive (all appended
to the prior channel content). -/
theorem c5_render_assembly (d : BaseDocument) (out : String)
    (h : ∀ e ∈ d.elements, e.run.ok = true) :
    d.render out =
      .ok (out ++ d.preamble ++ "\n\n" ++ BaseDocument.DocumentBegin ++ "\n" ++
        concatList (d.elements.map elementBlock) ++ BaseDocument.DocumentEnd ++ "\n") :=
  render_ok d out h

/-- Witness for C5 at the spec's end-to-end example: preamble `"P"`,
one paragraph `["a","b"]`. -/
theorem c5_render_assembly_witness :
    (∀ e ∈ ([.paragraph ⟨["a", "b"]⟩] : List ITeXElement), e.run.ok = true) ∧
    BaseDocument.render ⟨"P", [.paragraph ⟨["a", "b"]⟩]⟩ "" =
      .ok "P\n\n\\begin\x7bdocument\x7d\n    a\n    b\n\n\\end\x7bdocument\x7d\n" := by
  refine ⟨by decide, ?_⟩
  rw [c5_render_assembly ⟨"P", [.paragraph ⟨["a", "b"]⟩]⟩ "" (by decide)]
  rfl

/-- C6: rendering is referentially transparent in the model — the
same document renders to the same result — and when the same element
value occupies two slots of one document, both slots contribute the
identical block `elementBlock e`, computed from a fresh producer run
starting at position 0, with no state carried from the first occurrence
to the second. -/
theorem c6_render_deterministic_duplicate_independent
    (d : BaseDocument) (p out : String) (pre mid post : List ITeXElement)
    (e : ITeXElement)
    (h : ∀ x ∈ pre ++ e :: (mid ++ e :: post), x.run.ok = true) :
    d.render out = d.render out ∧
    BaseDocument.render ⟨p, pre ++ e :: (mid ++ e :: post)⟩ out =
      .ok (out ++ p ++ "\n\n" ++ BaseDocument.DocumentBegin ++ "\n" ++
        concatList (pre.map elementBlock) ++
        (elementBlock e ++
          (concatList (mid.map elementBlock) ++
            (elementBlock e ++ concatList (post.map elementBlock)))) ++
        BaseDocument.DocumentEnd ++ "\n") := by
  refine ⟨rfl, ?_⟩
  rw [render_ok ⟨p, pre ++ e :: (mid ++ e :: post)⟩ out h]
  simp only [List.map_append, List.map_cons, concatList_append, concatList,
    string_append_assoc]

/-- Witness for C6: the same paragraph in both slots of a two-slot
document yields its full block twice. -/
theorem c6_render_deterministic_duplicate_independent_witness :
    (∀ x ∈ ([] : List ITeXElement) ++
        .paragraph ⟨["x"]⟩ :: (([] : List ITeXElement) ++ .paragraph ⟨["x"]⟩ :: []),
      x.run.ok = true) ∧
    BaseDocument.render ⟨"P", [.paragraph ⟨["x"]⟩, .paragraph ⟨["x"]⟩]⟩ "" =
      .ok "P\n\n\\begin\x7bdocument\x7d\n    x\n\n    x\n\n\\end\x7bdocument\x7d\n" := by
  refine ⟨by decide, ?_⟩
  have h2 := (c6_render_deterministic_duplicate_independent
    ⟨"P", [.paragraph ⟨["x"]⟩, .paragraph ⟨["x"]⟩]⟩ "P" "" [] [] []
    (.paragraph ⟨["x"]⟩) (by decide)).2
  exact h2.trans rfl

/-- C7: the pipeline invokes the command steps in list order, each
with its fixed arguments followed by the output-directory argument and
the temp source file path as the final argument; when some step fails
(non-zero exit code, spawn failure, or timeout), the pipeline returns
`false`, performs exactly the successful invocations plus the first
failing one (none of the remaining steps), and leaves the output path
untouched. -/
theorem c7_pipeline_step_failure_aborts (env : PdfFileRenderer.PipelineEnv)
    (dir tex : String) (cmds : List PdfFileRenderer.CommandDescription)
    (outFile : Option String)
    (hw : env.writeTexOk = true)
    (hfail : (PdfFileRenderer.runCommands env.run dir tex cmds).1 = false) :
    PdfFileRenderer.render env dir tex cmds outFile =
      (false,
        (cmds.takeWhile (PdfFileRenderer.stepSucceeds env.run dir tex) ++
          (cmds.dropWhile (PdfFileRenderer.stepSucceeds env.run dir tex)).take 1).map
          (PdfFileRenderer.plannedInvocation dir tex),
        outFile) := by
  rw [PdfFileRenderer.render_cmd_failure env dir tex cmds outFile hw hfail,
    PdfFileRenderer.runCommands_snd]

/-- Witness for C7: the two-step pdflatex preset where every process
exits with code 1 — only the first step is invoked (with its fixed
arguments, the output-directory option and the source path appended),
the result is `false`, and the old output file stays. -/
theorem c7_pipeline_step_failure_aborts_witness :
    ((⟨fun _ _ => PdfFileRenderer.ProcessOutcome.finished 1, true, true, true, "new"⟩ :
        PdfFileRenderer.PipelineEnv).writeTexOk = true) ∧
    ((PdfFileRenderer.runCommands
        (fun _ _ => PdfFileRenderer.ProcessOutcome.finished 1) "D" "main.tex"
        [⟨"pdflatex", ["-halt-on-error", "-draftmode"]⟩,
         ⟨"pdflatex", ["-halt-on-error"]⟩]).1 = false) ∧
    PdfFileRenderer.render
        ⟨fun _ _ => PdfFileRenderer.ProcessOutcome.finished 1, true, true, true, "new"⟩
        "D" "main.tex"
        [⟨"pdflatex", ["-halt-on-error", "-draftmode"]⟩,
         ⟨"pdflatex", ["-halt-on-error"]⟩]
        (some "old") =
      (false,
        [("pdflatex", ["-halt-on-error", "-draftmode", "-output-directory=D", "main.tex"])],
        some "old") := by
  refine ⟨rfl, by decide, ?_⟩
  rw [c7_pipeline_step_failure_aborts
    ⟨fun _ _ => PdfFileRenderer.ProcessOutcome.finished 1, true, true, true, "new"⟩
    "D" "main.tex"
    [⟨"pdflatex", ["-halt-on-error", "-draftmode"]⟩, ⟨"pdflatex", ["-halt-on-error"]⟩]
    (some "old") rfl (by decide)]
  rfl

/-- C8: when the temp-file write and every command step succeed, the
pipeline removes any pre-existing file at the output path and renames
the produced artifact onto it, so the output path ends up holding only
the newly produced artifact; and when removing the pre-existing file
fails, the pipeline aborts with `false` and the old file stays. -/
theorem c8_pipeline_success_replaces_output (env : PdfFileRenderer.PipelineEnv)
    (dir tex : String) (cmds : List PdfFileRenderer.CommandDescription)
    (outFile : Option String)
    (hw : env.writeTexOk = true)
    (hok : (PdfFileRenderer.runCommands env.run dir tex cmds).1 = true) :
    ((outFile = none ∨ env.removeOk = true) → env.renameOk = true →
      PdfFileRenderer.render env dir tex cmds outFile =
        (true, cmds.map (PdfFileRenderer.plannedInvocation dir tex),
          some env.artifact)) ∧
    (∀ f, outFile = some f → env.removeOk = false →
      PdfFileRenderer.render env dir tex cmds outFile =
        (false, cmds.map (PdfFileRenderer.plannedInvocation dir tex), some f)) := by
  constructor
  · intro hrm hrn
    have hrm2 : PdfFileRenderer.removeExistingOutputFile outFile env.removeOk = true := by
      rcases hrm with h1 | h2
      · rw [h1]; rfl
      · cases outFile <;> simp [PdfFileRenderer.removeExistingOutputFile, h2]
    rw [PdfFileRenderer.render_success env dir tex cmds outFile hw hok hrm2 hrn,
      PdfFileRenderer.runCommands_snd_all env.run dir tex cmds hok]
  · intro f hf hrm
    have hrm2 : PdfFileRenderer.removeExistingOutputFile outFile env.removeOk = false := by
      rw [hf]
      simp [PdfFileRenderer.removeExistingOutputFile, hrm]
    rw [PdfFileRenderer.render_remove_failure env dir tex cmds outFile hw hok hrm2,
      PdfFileRenderer.runCommands_snd_all env.run dir tex cmds hok, hf]

/-- Witness for C8: the two-step pdflatex preset with every process
exiting 0 and an old file at the output path — both planned invocations
are performed, the old file is replaced, and the output path holds only
the new artifact. -/
theorem c8_pipeline_success_replaces_output_witness :
    ((⟨fun _ _ => PdfFileRenderer.ProcessOutcome.finished 0, true, true, true, "new"⟩ :
        PdfFileRenderer.PipelineEnv).writeTexOk = true) ∧
    ((PdfFileRenderer.runCommands
        (fun _ _ => PdfFileRenderer.ProcessOutcome.finished 0) "D" "main.tex"
        [⟨"pdflatex", ["-halt-on-error", "-draftmode"]⟩,
         ⟨"pdflatex", ["-halt-on-error"]⟩]).1 = true) ∧
    PdfFileRenderer.render
        ⟨fun _ _ => PdfFileRenderer.ProcessOutcome.finished 0, true, true, true, "new"⟩
        "D" "main.tex"
        [⟨"pdflatex", ["-halt-on-error", "-draftmode"]⟩,
         ⟨"pdflatex", ["-halt-on-error"]⟩]
        (some "old") =
      (true,
        [("pdflatex", ["-halt-on-error", "-draftmode", "-output-directory=D", "main.tex"]),
         ("pdflatex", ["-halt-on-error", "-output-directory=D", "main.tex"])],
        some "new") := by
  refine ⟨rfl, by decide, ?_⟩
  have h8 := (c8_pipeline_success_replaces_output
    ⟨fun _ _ => PdfFileRenderer.ProcessOutcome.finished 0, true, true, true, "new"⟩
    "D" "main.tex"
    [⟨"pdflatex", ["-halt-on-error", "-draftmode"]⟩, ⟨"pdflatex", ["-halt-on-error"]⟩]
    (some "old") rfl (by decide)).1 (Or.inr rfl) rfl
  exact h8.trans rfl

/-- C9: for every options record, the generated preamble is the fixed
document-class/geometry/font lines followed by exactly one
macro-definition line per custom column type in list order, all joined
by newlines; a column type with the auto-fit flag generates the
auto-fit macro form, which ignores its fixed width, while one without
it generates the fixed-width macro using its size. -/
theorem c9_lua_preamble_generation (o : LuaDocument.Options) :
    LuaDocument.getPreamble o =
      joinSep "\n" (LuaDocument.fixedPreambleLines o ++
        o.columnsTypes.map LuaDocument.ColumnType.asCommand) ∧
    (o.columnsTypes.map LuaDocument.ColumnType.asCommand).length =
      o.columnsTypes.length ∧
    (∀ (n : Char) (a : LuaDocument.Alignment) (s1 s2 : Nat),
      LuaDocument.ColumnType.asCommand ⟨n, a, s1, true⟩ =
        LuaDocument.ColumnType.asCommand ⟨n, a, s2, true⟩) ∧
    (∀ (n : Char) (a : LuaDocument.Alignment) (s : Nat),
      LuaDocument.ColumnType.asCommand ⟨n, a, s, true⟩ =
        "\\newcolumntype\x7b" ++ String.singleton n ++ "\x7d\x7b>\x7b\\" ++
          LuaDocument.getAlignmentCommand a ++ "\\arraybackslash\x7dX\x7d") ∧
    (∀ (n : Char) (a : LuaDocument.Alignment) (s : Nat),
      LuaDocument.ColumnType.asCommand ⟨n, a, s, false⟩ =
        "\\newcolumntype\x7b" ++ String.singleton n ++ "\x7d\x7b>\x7b\\" ++
          LuaDocument.getAlignmentCommand a ++ "\\arraybackslash\x7dp\x7b" ++
          toString s ++ "mm\x7d\x7d") := by
  refine ⟨rfl, List.length_map o.columnsTypes LuaDocument.ColumnType.asCommand,
    fun n a s1 s2 => rfl, fun n a s => rfl, fun n a s => rfl⟩

/-- C10: the LongTable producer is total and in-bounds at its
interface: `readLine` at the end position returns the empty string with
the position unchanged (still at end), and every row index `readLine`
ever passes to the `rows.at(...)` lookup lies in `[0, rows.count())`,
for every table and every position. -/
theorem c10_table_reader_total_in_bounds (t : LaTeXLongTable) (pos : Nat) :
    (t.atEnd pos = true → t.readLine pos = .ok ("", pos)) ∧
    (∀ i : Int, t.rowAccessIndex pos = some i →
      0 ≤ i ∧ i < (t.rows.length : Int)) :=
  ⟨table_readLine_at_end t pos, fun i h => rowAccessIndex_in_range t pos i h⟩

/-- Witness for C10 at a one-row table: `readLine` at the end position
5 yields the empty string without moving, and the one row lookup (at
position 3) uses index 0, inside `[0, 1)`. -/
theorem c10_table_reader_total_in_bounds_witness :
    (LaTeXLongTable.readLine ⟨"L", [⟨"A", 'T'⟩], [⟨["x"]⟩]⟩ 5 = .ok ("", 5)) ∧
    (LaTeXLongTable.rowAccessIndex ⟨"L", [⟨"A", 'T'⟩], [⟨["x"]⟩]⟩ 3 = some 0) ∧
    (0 ≤ (0 : Int) ∧ (0 : Int) <
      (((⟨"L", [⟨"A", 'T'⟩], [⟨["x"]⟩]⟩ : LaTeXLongTable).rows.length : Int))) :=
  ⟨(c10_table_reader_total_in_bounds ⟨"L", [⟨"A", 'T'⟩], [⟨["x"]⟩]⟩ 5).1 (by decide),
    by decide,
    (c10_table_reader_total_in_bounds ⟨"L", [⟨"A", 'T'⟩], [⟨["x"]⟩]⟩ 3).2 0 (by decide)⟩
